import Mathlib

/-!
Verification development for the PTDLauncher resource-acquisition pipeline
(`src-tauri/src/{flash,ruffle,game,config,lib}.rs`).

The Rust modules are shallowly embedded as pure Lean functions:
* the filesystem is an association list from path strings to byte lists;
* an HTTP response is its status code, declared content length and the list
  of body chunks that the stream yields (each chunk either bytes or a
  transport error), so one downloader call is a pure function of the response;
* `u64`/`u32` values are `Nat` (no arithmetic here can overflow `u64`:
  byte counts are bounded by the stream that is consumed);
* Rust `Result<T, String>` is `Except String T`;
* the `f64` arithmetic used for the progress percentage is modelled exactly
  by correctly-rounded (round-to-nearest, ties-to-even) operations on exact
  rationals represented as numerator/denominator pairs, which is the IEEE-754
  binary64 semantics in the normal, non-overflowing range exercised here;
* the shared `Mutex<Settings>` is a value paired with a poison flag; a
  command that calls `.lock().unwrap()` is modelled as returning `none`
  (panic) on a poisoned lock, while `match lock { Ok(s) => s, Err(p) =>
  p.into_inner() }` always yields the stored value;
* calls into external crates (zip/tar extraction) and raw disk-write
  failures are not modelled: file writes succeed in the model, and
  extraction enters the model as an explicit function parameter.
-/

set_option maxRecDepth 400000

/-! ## String helpers (explicit, structurally recursive) -/

/-- `strStarts hay pat` is true when `pat` is an initial segment of `hay`
(char-list form of Rust `str::starts_with`). -/
def strStarts : List Char → List Char → Bool
  | _, [] => true
  | [], _ :: _ => false
  | a :: as, b :: bs => a = b && strStarts as bs

/-- Char-list form of Rust `str::contains` (substring containment). -/
def strContainsL : List Char → List Char → Bool
  | [], pat => pat.isEmpty
  | c :: t, pat => strStarts (c :: t) pat || strContainsL t pat

/-- Rust `str::contains` on strings. -/
def strContains (hay pat : String) : Bool := strContainsL hay.data pat.data

/-- Rust `str::starts_with` on strings. -/
def strStartsWith (s pat : String) : Bool := strStarts s.data pat.data

/-- Rust `str::ends_with` on strings. -/
def strEndsWith (s pat : String) : Bool := strStarts s.data.reverse pat.data.reverse

/-- Split a char list at every `/`, keeping empty segments (Rust `str::split('/')`,
which always yields at least one segment). -/
def splitSlash : List Char → List (List Char)
  | [] => [[]]
  | c :: t =>
    match splitSlash t with
    | [] => if c = '/' then [[], []] else [[c]]
    | h :: r => if c = '/' then [] :: h :: r else (c :: h) :: r

/-- Rust `url.split('/').next_back().unwrap_or("ruffle_archive")`: the final
path segment of a URL. -/
def lastSegment (url : String) : String :=
  match (splitSlash url.data).getLast? with
  | some s => String.mk s
  | none => "ruffle_archive"

/-- Scanning the reversed path: returns the reversed stem when the final
component has a real (non-leading-dot) extension, `none` otherwise. -/
def breakExtRev : List Char → Option (List Char)
  | [] => none
  | c :: t =>
    if c = '/' then none
    else if c = '.' then
      match t with
      | [] => none
      | d :: _ => if d = '/' then none else some t
    else breakExtRev t

/-- Rust `Path::with_extension(ext)`: replace the extension of the final path
component (the part after its last dot, a leading dot not counting), or append
`.ext` when there is none. -/
def withExtension (p ext : String) : String :=
  match breakExtRev p.data.reverse with
  | some stemRev => String.mk (stemRev.reverse ++ '.' :: ext.data)
  | none => String.mk (p.data ++ '.' :: ext.data)

/-! ## Exact model of the `f64` progress computation

The Rust sources compute `((downloaded as f64 / total as f64) * 100.0) as u32`.
Every intermediate value lies in the normal range of binary64 (no subnormals,
no overflow, no NaN for `total > 0`), where each IEEE-754 operation returns
the exact result rounded to the nearest representable value, ties to even.
We therefore model a nonnegative double as an exact rational (numerator,
power-of-two denominator) and each operation by exact arithmetic followed by
correct rounding to 53 significant bits. -/

/-- Fueled base-2 logarithm: `log2fuel f n` is `⌊log₂ n⌋` for `2 ≤ n < 2 ^ f`
(and `0` for `n < 2`); fuel 400 covers every number built below. -/
def log2fuel : Nat → Nat → Nat
  | 0, _ => 0
  | fuel + 1, n => if 2 ≤ n then log2fuel fuel (n / 2) + 1 else 0

/-- Round the rational `p / q` (with `q > 0`) to the nearest integer,
ties to even. -/
def rhe (p q : Nat) : Nat :=
  let n := p / q
  let r := p % q
  if 2 * r < q then n else if q < 2 * r then n + 1 else if n % 2 = 0 then n else n + 1

/-- The binade exponent of `p / q` (for `p, q ≥ 1`): the `e : ℤ` with
`2 ^ e ≤ p / q < 2 ^ (e + 1)`. -/
def ilog2p (p q : Nat) : Int :=
  let c : Int := (log2fuel 400 p : Int) - (log2fuel 400 q : Int)
  let ok : Bool :=
    if 0 ≤ c then decide (q * 2 ^ c.toNat ≤ p) else decide (q ≤ p * 2 ^ (-c).toNat)
  if ok then c else c - 1

/-- Correctly round the nonnegative rational `p / q` to IEEE-754 binary64
(round to nearest, ties to even), returned as an exact
numerator/denominator pair. Zero maps to zero; `q = 0` never occurs in use. -/
def roundPair (p q : Nat) : Nat × Nat :=
  if p = 0 ∨ q = 0 then (0, 1)
  else
    let e := ilog2p p q
    let s : Int := 52 - e
    let m := if 0 ≤ s then rhe (p * 2 ^ s.toNat) q else rhe p (q * 2 ^ (-s).toNat)
    if 52 ≤ e then (m * 2 ^ (e - 52).toNat, 1) else (m, 2 ^ (52 - e).toNat)

/-- Rust `u64 as f64` (round to nearest, ties to even). -/
def f64OfNat (n : Nat) : Nat × Nat := roundPair n 1

/-- IEEE-754 binary64 division of two exactly-represented doubles. -/
def f64Div (a b : Nat × Nat) : Nat × Nat := roundPair (a.1 * b.2) (a.2 * b.1)

/-- IEEE-754 binary64 multiplication by the exact double `100.0`. -/
def f64Mul100 (a : Nat × Nat) : Nat × Nat := roundPair (a.1 * 100) a.2

/-- Rust `f64 as u32` for a nonnegative finite value: truncation toward zero,
saturating at `u32::MAX`. -/
def truncU32 (a : Nat × Nat) : Nat := min (a.1 / a.2) (2 ^ 32 - 1)

/-- The progress expression common to `flash.rs`, `ruffle.rs` and `game.rs`:
`if total > 0 { ((downloaded as f64 / total as f64) * 100.0) as u32 } else { 0 }`. -/
def progressValue (downloaded total : Nat) : Nat :=
  if 0 < total then truncU32 (f64Mul100 (f64Div (f64OfNat downloaded) (f64OfNat total)))
  else 0

/-! ## Shared data model -/

/-- The progress event payload (`DownloadProgress` in `flash.rs`/`ruffle.rs`). -/
structure DownloadProgress where
  item : String
  progress : Nat
  downloaded : Nat
  total : Nat
  status : String
  deriving Repr, DecidableEq

instance {ε α : Type} [DecidableEq ε] [DecidableEq α] : DecidableEq (Except ε α) := fun x y =>
  match x, y with
  | .ok a, .ok b =>
    if h : a = b then isTrue (by rw [h]) else isFalse (by intro hh; cases hh; exact h rfl)
  | .error a, .error b =>
    if h : a = b then isTrue (by rw [h]) else isFalse (by intro hh; cases hh; exact h rfl)
  | .ok _, .error _ => isFalse (by intro hh; cases hh)
  | .error _, .ok _ => isFalse (by intro hh; cases hh)

/-- One HTTP response as the downloader observes it: the status code, the
declared `Content-Length` (if any) and the successive chunks of the body
stream, each chunk being bytes or a transport error. -/
structure HttpResponse where
  status : Nat
  content_length : Option Nat
  chunks : List (Except String (List Nat))
  deriving DecidableEq

/-- `reqwest::StatusCode::is_success`: 2xx. -/
def statusIsSuccess (s : Nat) : Bool := 200 ≤ s && s < 300

/-- The filesystem: an association list from path to file contents (bytes). -/
abbrev FS : Type := List (String × List Nat)

/-- Contents of the file at `p`, if it exists. -/
def fsGet (fs : FS) (p : String) : Option (List Nat) :=
  match fs with
  | [] => none
  | (q, c) :: t => if q = p then some c else fsGet t p

/-- Delete the file at `p` (no-op when absent): `fs::remove_file`, best-effort. -/
def fsRemove (fs : FS) (p : String) : FS :=
  match fs with
  | [] => []
  | (q, c) :: t => if q = p then fsRemove t p else (q, c) :: fsRemove t p

/-- Create or truncate the file at `p` with contents `c`
(`fs::File::create` followed by writes). -/
def fsSet (fs : FS) (p : String) (c : List Nat) : FS :=
  (p, c) :: fsRemove fs p

/-- Append bytes to the (open) file at `p` (`write_all` on the open handle). -/
def fsAppend (fs : FS) (p : String) (b : List Nat) : FS :=
  fsSet fs p ((fsGet fs p).getD [] ++ b)

/-- `fs::rename(src, dst)`: move the contents of `src` onto `dst`, replacing
`dst`; modelled for the case where `src` exists (the only case reached). -/
def fsRename (fs : FS) (src dst : String) : FS :=
  match fsGet fs src with
  | some c => fsSet (fsRemove fs src) dst c
  | none => fs

/-- The `Err` payload of an `Except`, Rust `Result::err()`. -/
def errOf : Except String α → Option String
  | .error e => some e
  | .ok _ => none

/-- Outcome of one downloader call: final filesystem, the fine-grained
progress events it emitted, and its `Result`. -/
structure RunResult where
  fs : FS
  events : List DownloadProgress
  result : Except String Unit
  deriving DecidableEq

/-! ## `flash.rs` — downloader with size limit and atomic publication -/

namespace Flash

/-- `flash.rs:185`. -/
def MAX_DOWNLOAD_SIZE : Nat := 500 * 1024 * 1024

/-- The chunk loop of `flash.rs::download_file_with_progress` (lines 217-245)
followed by the flush-and-rename epilogue (lines 247-252). State: remaining
chunks, running byte count `d`, filesystem, events emitted so far. On each
chunk: propagate a transport error; add the chunk length; if the running
count exceeds `MAX_DOWNLOAD_SIZE`, delete the temp file and fail; otherwise
append the bytes to the temp file and emit a progress event. After the last
chunk: flush (a no-op in the model) and rename the temp file onto `dest`. -/
def downloadLoop (item dest tmp : String) (total : Nat) :
    List (Except String (List Nat)) → Nat → FS → List DownloadProgress → RunResult
  | [], _, fs, evs => ⟨fsRename fs tmp dest, evs, .ok ()⟩
  | .error e :: _, _, fs, evs => ⟨fs, evs, .error ("Download error: " ++ e)⟩
  | .ok chunk :: rest, d, fs, evs =>
    let d' := d + chunk.length
    if MAX_DOWNLOAD_SIZE < d' then
      ⟨fsRemove fs tmp, evs, .error "Download exceeded maximum allowed size"⟩
    else
      let fs' := fsAppend fs tmp chunk
      let ev : DownloadProgress := ⟨item, progressValue d' total, d', total, "Downloading..."⟩
      downloadLoop item dest tmp total rest d' fs' (evs ++ [ev])

/-- `flash.rs:178-253 download_file_with_progress`: check the HTTP status,
reject a declared content length above `MAX_DOWNLOAD_SIZE` before reading any
body byte, create the temporary sibling `dest.with_extension("part")`, then
run the chunk loop. The network is summarised by the `response` the URL
yields; client-build and send errors are subsumed in the non-2xx case. -/
def download_file_with_progress (item_name : String) (dest : String)
    (response : HttpResponse) (fs : FS) : RunResult :=
  if ¬ statusIsSuccess response.status then
    ⟨fs, [], .error ("HTTP error: " ++ toString response.status)⟩
  else
    let total := (response.content_length).getD 0
    if MAX_DOWNLOAD_SIZE < total then
      ⟨fs, [], .error ("Remote file too large: " ++ toString total ++ " bytes")⟩
    else
      let tmp := withExtension dest "part"
      downloadLoop item_name dest tmp total response.chunks 0 (fsSet fs tmp []) []

/-- Outcome of the primary/fallback phase of `download_flash`: the URLs a
download attempt was issued to, in order, and the phase's `RunResult`. -/
structure AttemptsResult where
  requests : List String
  run : RunResult
  deriving DecidableEq

/-- `flash.rs:96-117`, the two-tier retry segment of `download_flash`: try the
primary URL; on error, if a fallback URL is configured, emit the milestone
event and make exactly one more attempt whose outcome (success or its own
error) is the phase outcome; if no fallback is configured, fail with the
primary attempt's error (`primary_attempt.err().unwrap_or_else(...)`).
`net` maps a URL to the response a GET of it produces. -/
def download_flash_attempts (net : String → HttpResponse)
    (primary_url : String) (fallback_url : Option String)
    (download_path : String) (fs : FS) : AttemptsResult :=
  let primary_attempt := download_file_with_progress "flash_player" download_path (net primary_url) fs
  if primary_attempt.result.isOk then ⟨[primary_url], primary_attempt⟩
  else
    match fallback_url with
    | some fallback =>
      let milestone : DownloadProgress :=
        ⟨"flash_player", 0, 0, 0, "Primary failed, trying fallback..."⟩
      let second := download_file_with_progress "flash_player" download_path (net fallback)
        primary_attempt.fs
      ⟨[primary_url, fallback],
        ⟨second.fs, primary_attempt.events ++ milestone :: second.events, second.result⟩⟩
    | none =>
      ⟨[primary_url],
        ⟨primary_attempt.fs, primary_attempt.events,
          .error ((errOf primary_attempt.result).getD "Download failed")⟩⟩

end Flash

/-! ## `ruffle.rs` — downloader without size limit, writing the destination
directly -/

namespace Ruffle

/-- The chunk loop of `ruffle.rs::download_file_with_progress` (lines
253-275): each chunk is appended **directly to the destination file**; the
byte count is updated after the write and a progress event emitted. There is
no size limit and no epilogue: the loop ending is the success. -/
def downloadLoop (item dest : String) (total : Nat) :
    List (Except String (List Nat)) → Nat → FS → List DownloadProgress → RunResult
  | [], _, fs, evs => ⟨fs, evs, .ok ()⟩
  | .error e :: _, _, fs, evs => ⟨fs, evs, .error ("Download error: " ++ e)⟩
  | .ok chunk :: rest, d, fs, evs =>
    let fs' := fsAppend fs dest chunk
    let d' := d + chunk.length
    let ev : DownloadProgress := ⟨item, progressValue d' total, d', total, "Downloading..."⟩
    downloadLoop item dest total rest d' fs' (evs ++ [ev])

/-- `ruffle.rs:228-278 download_file_with_progress`: check the HTTP status,
read the declared content length (0 when absent, used only for the progress
percentage), create the **destination file itself** and stream into it. -/
def download_file_with_progress (item_name : String) (dest : String)
    (response : HttpResponse) (fs : FS) : RunResult :=
  if ¬ statusIsSuccess response.status then
    ⟨fs, [], .error ("HTTP error: " ++ toString response.status)⟩
  else
    let total := (response.content_length).getD 0
    downloadLoop item_name dest total response.chunks 0 (fsSet fs dest []) []

end Ruffle

/-! ## `game.rs` — downloader (verbatim duplicate of the ruffle one) -/

namespace Game

/-- The chunk loop of `game.rs::download_file_with_progress` (lines 254-276),
identical to the ruffle one: chunks are appended directly to the destination
file, with no size limit. -/
def downloadLoop (item dest : String) (total : Nat) :
    List (Except String (List Nat)) → Nat → FS → List DownloadProgress → RunResult
  | [], _, fs, evs => ⟨fs, evs, .ok ()⟩
  | .error e :: _, _, fs, evs => ⟨fs, evs, .error ("Download error: " ++ e)⟩
  | .ok chunk :: rest, d, fs, evs =>
    let fs' := fsAppend fs dest chunk
    let d' := d + chunk.length
    let ev : DownloadProgress := ⟨item, progressValue d' total, d', total, "Downloading..."⟩
    downloadLoop item dest total rest d' fs' (evs ++ [ev])

/-- `game.rs:229-279 download_file_with_progress`: same shape as the ruffle
downloader — the destination file is created and written directly. -/
def download_file_with_progress (item_name : String) (dest : String)
    (response : HttpResponse) (fs : FS) : RunResult :=
  if ¬ statusIsSuccess response.status then
    ⟨fs, [], .error ("HTTP error: " ++ toString response.status)⟩
  else
    let total := (response.content_length).getD 0
    downloadLoop item_name dest total response.chunks 0 (fsSet fs dest []) []

end Game

/-! ## `config.rs` — configuration, settings and path resolution -/

/-- The three `target_os` values the sources branch on (`cfg!` / `#[cfg]`). -/
inductive OS
  | windows
  | macos
  | linux
  deriving DecidableEq, Repr

namespace Config

/-- `config.rs::FlashPlayerOs`. -/
structure FlashPlayerOs where
  primary_url : String
  fallback_url : Option String
  filename : String
  deriving DecidableEq

/-- `config.rs::FlashPlayerConfig`. -/
structure FlashPlayerConfig where
  fallback_version : String
  windows : FlashPlayerOs
  macos : FlashPlayerOs
  linux : FlashPlayerOs
  deriving DecidableEq

/-- `config.rs::RuffleOs`. -/
structure RuffleOs where
  url : String
  filename : String
  deriving DecidableEq

/-- `config.rs::RuffleConfig`. -/
structure RuffleConfig where
  windows : RuffleOs
  macos : RuffleOs
  linux : RuffleOs
  deriving DecidableEq

/-- `config.rs::AppConfig` (the game-URL map as an association list). -/
structure AppConfig where
  flash_player : FlashPlayerConfig
  ruffle : RuffleConfig
  game_urls : List (String × String)
  deriving DecidableEq

/-- `config.rs::Settings`. -/
structure Settings where
  flash_player_path : Option String
  use_ruffle : Option Bool
  ruffle_path : Option String
  sound_enabled : Option Bool
  deriving DecidableEq

/-- `config.rs::GameVersions`. -/
structure GameVersions where
  flash_player : String
  ruffle : String
  games : List (String × String)
  deriving DecidableEq

/-- The per-OS selection `config.flash_player.{windows,macos,linux}`. -/
def flashOsCfg (cfg : AppConfig) : OS → FlashPlayerOs
  | .windows => cfg.flash_player.windows
  | .macos => cfg.flash_player.macos
  | .linux => cfg.flash_player.linux

/-- The per-OS selection `config.ruffle.{windows,macos,linux}`. -/
def ruffleOsCfg (cfg : AppConfig) : OS → RuffleOs
  | .windows => cfg.ruffle.windows
  | .macos => cfg.ruffle.macos
  | .linux => cfg.ruffle.linux

/-- `config.rs:271-293 get_flash_player_path`. `ex` is the filesystem
existence probe (`Path::exists`) and `flash_dir` the outcome of
`get_flash_dir()` (which can fail when no home/appdata directory resolves).
A configured custom path wins only when it currently exists on disk;
otherwise the OS-conventional default `flash_dir ⊕ filename` is returned. -/
def get_flash_player_path (ex : String → Bool) (flash_dir : Except String String)
    (cfg : AppConfig) (os : OS) (settings : Settings) : Except String String :=
  let dflt := flash_dir.map (fun d => d ++ "/" ++ (flashOsCfg cfg os).filename)
  match settings.flash_player_path with
  | some custom => if ex custom then .ok custom else dflt
  | none => dflt

/-- `config.rs:296-318 get_ruffle_path`: same precedence for the ruffle
runtime, against `get_ruffle_dir()`. -/
def get_ruffle_path (ex : String → Bool) (ruffle_dir : Except String String)
    (cfg : AppConfig) (os : OS) (settings : Settings) : Except String String :=
  let dflt := ruffle_dir.map (fun d => d ++ "/" ++ (ruffleOsCfg cfg os).filename)
  match settings.ruffle_path with
  | some custom => if ex custom then .ok custom else dflt
  | none => dflt

end Config

/-! ## The shared settings lock (`Mutex<Settings>` managed in `lib.rs`) -/

/-- A `std::sync::Mutex` value as one command invocation sees it: the
last-written value plus the poison flag (set when a task panicked while
holding the lock). `lock()` returns `Ok(guard)` when unpoisoned and
`Err(PoisonError)` — whose `into_inner()` still yields the guard — when
poisoned. -/
structure SettingsLock where
  value : Config.Settings
  poisoned : Bool
  deriving DecidableEq

namespace Lib

/-- `lib.rs:86-95 get_settings`: `match lock { Ok(s) => clone, Err(p) =>
p.into_inner().clone() }` — recovers the stored value even when poisoned.
`none` would mean the command panicked; this one never does. -/
def get_settings (m : SettingsLock) : Option Config.Settings :=
  some m.value

/-- `lib.rs:97-113 save_settings`: replace the in-memory value (recovering
from poisoning via `into_inner`), **then** persist to disk; the disk outcome
of `config::save_settings` is the `persist` parameter. Returns the new lock
state and the command result (`none` would mean a panic; this command never
panics). -/
def save_settings (persist : Config.Settings → Except String Unit)
    (new_settings : Config.Settings) (m : SettingsLock) :
    SettingsLock × Option (Except String Unit) :=
  (⟨new_settings, m.poisoned⟩, some (persist new_settings))

end Lib

namespace Flash

/-- `flash.rs:19-33 check_flash_installed`: recovers a poisoned lock via
`into_inner`, resolves the flash-player path and probes its existence;
a resolution error yields `false`. Never panics (`none` unreachable). -/
def check_flash_installed (ex : String → Bool) (flash_dir : Except String String)
    (cfg : Config.AppConfig) (os : OS) (m : SettingsLock) : Option Bool :=
  some (match Config.get_flash_player_path ex flash_dir cfg os m.value with
    | .ok path => ex path
    | .error _ => false)

/-- `flash.rs:35-49 get_flash_path`: recovers a poisoned lock via
`into_inner`, then returns the resolved path (`to_str` conversion modelled
as always valid UTF-8). Never panics. -/
def get_flash_path (ex : String → Bool) (flash_dir : Except String String)
    (cfg : Config.AppConfig) (os : OS) (m : SettingsLock) : Option (Except String String) :=
  some (Config.get_flash_player_path ex flash_dir cfg os m.value)

end Flash

namespace Ruffle

/-- `ruffle.rs:18-28 check_ruffle_installed`: calls `settings.lock().unwrap()`,
so a poisoned lock makes the command **panic** (`none`); otherwise the
resolved ruffle path is probed for existence. -/
def check_ruffle_installed (ex : String → Bool) (ruffle_dir : Except String String)
    (cfg : Config.AppConfig) (os : OS) (m : SettingsLock) : Option Bool :=
  if m.poisoned then none
  else
    some (match Config.get_ruffle_path ex ruffle_dir cfg os m.value with
      | .ok path => ex path
      | .error _ => false)

/-- `ruffle.rs:30-40 get_ruffle_path` (the command): also
`settings.lock().unwrap()` — panics on a poisoned lock. -/
def get_ruffle_path_cmd (ex : String → Bool) (ruffle_dir : Except String String)
    (cfg : Config.AppConfig) (os : OS) (m : SettingsLock) : Option (Except String String) :=
  if m.poisoned then none
  else some (Config.get_ruffle_path ex ruffle_dir cfg os m.value)

end Ruffle

/-! ## `ruffle.rs` — nightly discovery and the acquisition coordinator -/

namespace Ruffle

/-- `ruffle.rs::RuffleAsset`. -/
structure RuffleAsset where
  name : String
  browser_download_url : String
  deriving DecidableEq

/-- `ruffle.rs::RuffleRelease`. -/
structure RuffleRelease where
  tag_name : String
  assets : List RuffleAsset
  deriving DecidableEq

/-- The `#[cfg(target_os)]`-selected asset-name pattern
(`ruffle.rs:82-87`). -/
def targetPattern : OS → String
  | .windows => "windows-x86_64.zip"
  | .macos => "macos-universal.tar.gz"
  | .linux => "linux-x86_64.tar.gz"

/-- The asset filter of `ruffle.rs:89-92`: name contains the OS pattern and
does not contain `"extension"`. -/
def assetMatches (os : OS) (a : RuffleAsset) : Bool :=
  strContains a.name (targetPattern os) && ! strContains a.name "extension"

/-- `ruffle.rs:54-106 fetch_latest_nightly`: on a successfully fetched and
parsed release index (client-build, transport, non-2xx and JSON errors are
collapsed into the `Except` parameter), take the **first release in index
order**, pick the **first** asset matching `assetMatches`, and return
`(download URL, OS-conventional runtime filename, release tag)`.
Fails with "No releases found" on an empty index and
"No asset found for target: …" when no asset matches. -/
def fetch_latest_nightly (releases_response : Except String (List RuffleRelease))
    (os : OS) : Except String (String × String × String) :=
  match releases_response with
  | .error e => .error e
  | .ok releases =>
    match releases.head? with
    | none => .error "No releases found"
    | some release =>
      match release.assets.find? (assetMatches os) with
      | none => .error ("No asset found for target: " ++ targetPattern os)
      | some asset =>
        let filename := if os = .windows then "ruffle.exe" else "ruffle"
        .ok (asset.browser_download_url, filename, release.tag_name)

/-- Outcome of one `download_ruffle` invocation: the filesystem, the emitted
events, the URLs a download attempt was issued to, the `GameVersions`
document written by `save_versions` (`none` when that point is not reached),
and the command result (the final installed path on success). -/
structure CoordinatorResult where
  fs : FS
  events : List DownloadProgress
  requests : List String
  versions_saved : Option Config.GameVersions
  result : Except String String
  deriving DecidableEq

/-- `ruffle.rs:108-226 download_ruffle`. Parameters summarise the effectful
collaborators: `fetch` is the outcome of the release-index request consumed
by `fetch_latest_nightly`, `net` maps a URL to the response its GET yields,
`extract_zip`/`extract_tar_gz` are the zip/tar crate calls (archive path,
destination directory), and `versions0` is the document `load_versions()`
read (its `unwrap_or_default` already applied). Steps: discovery with static
fallback (a failed discovery selects the configured URL/filename and the
literal version token "fallback" and is otherwise swallowed), download to
`ruffle_dir ⊕ (last URL segment)`, extension-keyed extraction, best-effort
archive deletion, version-ledger update, final path report. The Unix
permission fixup (a chmod on an existing file) does not change the
byte-level filesystem model and `save_versions`' own disk write is modelled
as succeeding. -/
def download_ruffle (fetch : Except String (List RuffleRelease))
    (net : String → HttpResponse)
    (extract_zip : FS → String → String → Except String FS)
    (extract_tar_gz : FS → String → String → Except String FS)
    (cfg : Config.AppConfig) (os : OS) (ruffle_dir : String)
    (versions0 : Config.GameVersions) (fs : FS) : CoordinatorResult :=
  let fetching : DownloadProgress := ⟨"ruffle", 0, 0, 0, "Fetching latest nightly..."⟩
  let sel := match fetch_latest_nightly fetch os with
    | .ok info => (info, ([] : List DownloadProgress))
    | .error e =>
      (((Config.ruffleOsCfg cfg os).url, (Config.ruffleOsCfg cfg os).filename, "fallback"),
        [⟨"ruffle", 0, 0, 0, "Failed to fetch latest: " ++ e ++ ". Using fallback..."⟩])
  let url := sel.1.1
  let filename := sel.1.2.1
  let version_tag := sel.1.2.2
  let archive_name := lastSegment url
  let download_path := ruffle_dir ++ "/" ++ archive_name
  let starting : DownloadProgress := ⟨"ruffle", 0, 0, 0, "Starting download..."⟩
  let pre := fetching :: sel.2 ++ [starting]
  let dl := download_file_with_progress "ruffle" download_path (net url) fs
  match dl.result with
  | .error e => ⟨dl.fs, pre ++ dl.events, [url], none, .error e⟩
  | .ok _ =>
    let extracted :=
      if strEndsWith archive_name ".zip" then extract_zip dl.fs download_path ruffle_dir
      else if strEndsWith archive_name ".tar.gz" then extract_tar_gz dl.fs download_path ruffle_dir
      else .error ("Unsupported archive format: " ++ archive_name)
    match extracted with
    | .error e => ⟨dl.fs, pre ++ dl.events, [url], none, .error e⟩
    | .ok fs2 =>
      let fs3 := fsRemove fs2 download_path
      let versions : Config.GameVersions := { versions0 with ruffle := version_tag }
      let complete : DownloadProgress := ⟨"ruffle", 100, 0, 0, "Download complete"⟩
      ⟨fs3, pre ++ dl.events ++ [complete], [url], some versions,
        .ok (ruffle_dir ++ "/" ++ filename)⟩

end Ruffle

/-! ## `game.rs` — game lookup -/

namespace Game

/-- One `fs::read_dir` entry as `find_game_path` consumes it: the file name
(`none` when `file_name().to_str()` fails on non-UTF-8) and the modification
time (`none` when `metadata()` or `modified()` fails), measured as a signed
offset from `UNIX_EPOCH` (a `SystemTime` may lie before the epoch). -/
structure DirEntry where
  name : Option String
  mtime : Option Int
  deriving DecidableEq

/-- One step of the versioned-file scan of `game.rs:25-39`, folding over the
directory entries (`none` entries are the `Err` results `flatten` skips).
State: (currently selected path, its modification time), seeded with
`(None, UNIX_EPOCH)`. A matching entry replaces the state only when its
mtime is **strictly** greater. -/
def scanStep (dir pre : String) (acc : Option String × Int) (e : Option DirEntry) :
    Option String × Int :=
  match e with
  | none => acc
  | some ent =>
    match ent.name with
    | none => acc
    | some n =>
      if strStartsWith n pre && strEndsWith n ".swf" then
        match ent.mtime with
        | none => acc
        | some t => if acc.2 < t then (some (dir ++ "/" ++ n), t) else acc
      else acc

/-- `game.rs:10-47 find_game_path`: probe `games_dir/{game_id}.swf` first;
otherwise scan the directory (when it is readable — `entries = none` models
a failed `read_dir`) for names starting with `"{game_id}-v"` and ending in
`".swf"`, keeping the most recently modified; `Ok(None)` when nothing is
found. `ex` is the `Path::exists` probe and `games_dir` the outcome of
`get_games_dir()`. -/
def find_game_path (ex : String → Bool) (games_dir : Except String String)
    (entries : Option (List (Option DirEntry))) (game_id : String) :
    Except String (Option String) :=
  match games_dir with
  | .error e => .error e
  | .ok dir =>
    let standard_path := dir ++ "/" ++ game_id ++ ".swf"
    if ex standard_path then .ok (some standard_path)
    else
      match entries with
      | none => .ok none
      | some es =>
        let pre := game_id ++ "-v"
        let scan := es.foldl (scanStep dir pre) (none, 0)
        match scan.1 with
        | some p => .ok (some p)
        | none => .ok none

/-- `game.rs:49-52 is_game_downloaded`. -/
def is_game_downloaded (ex : String → Bool) (games_dir : Except String String)
    (entries : Option (List (Option DirEntry))) (game_id : String) : Bool :=
  match find_game_path ex games_dir entries game_id with
  | .ok (some _) => true
  | _ => false

end Game

/-- Concatenation of the chunk bytes up to the first transport error:
exactly the bytes the streaming loop consumes successfully. -/
def okBytes : List (Except String (List Nat)) → List Nat
  | [] => []
  | .ok c :: rest => c ++ okBytes rest
  | .error _ :: _ => []

namespace Flash

/-- The point in the stream at which the running byte count first exceeds
`MAX_DOWNLOAD_SIZE`, if any (mirrors what "the running byte count ever
exceeds the size limit mid-stream" means for the chunk list, starting from
running count `d`, error chunks ending the stream). -/
def sizeBlown : List (Except String (List Nat)) → Nat → Bool
  | [], _ => false
  | .error _ :: _, _ => false
  | .ok c :: rest, d =>
    if MAX_DOWNLOAD_SIZE < d + c.length then true else sizeBlown rest (d + c.length)

/-- The fine-grained events the chunk loop appends, as a function of the
remaining chunks and the running byte count. -/
def eventsFrom (item : String) (total : Nat) :
    List (Except String (List Nat)) → Nat → List DownloadProgress
  | [], _ => []
  | .error _ :: _, _ => []
  | .ok c :: rest, d =>
    if MAX_DOWNLOAD_SIZE < d + c.length then []
    else
      ⟨item, progressValue (d + c.length) total, d + c.length, total, "Downloading..."⟩ ::
        eventsFrom item total rest (d + c.length)

end Flash

namespace Ruffle

/-- The fine-grained events the ruffle chunk loop appends. -/
def eventsFrom (item : String) (total : Nat) :
    List (Except String (List Nat)) → Nat → List DownloadProgress
  | [], _ => []
  | .error _ :: _, _ => []
  | .ok c :: rest, d =>
    ⟨item, progressValue (d + c.length) total, d + c.length, total, "Downloading..."⟩ ::
      eventsFrom item total rest (d + c.length)

end Ruffle

namespace Game

/-- The fine-grained events the game chunk loop appends. -/
def eventsFrom (item : String) (total : Nat) :
    List (Except String (List Nat)) → Nat → List DownloadProgress
  | [], _ => []
  | .error _ :: _, _ => []
  | .ok c :: rest, d =>
    ⟨item, progressValue (d + c.length) total, d + c.length, total, "Downloading..."⟩ ::
      eventsFrom item total rest (d + c.length)

end Game

namespace Game

/-- The data the scan of `find_game_path` can use from one directory entry:
`some (name, mtime)` when the entry is readable, its name is valid UTF-8,
matches `"{game_id}-v"*.swf`, and its metadata is readable. -/
def entryMatch (pre : String) (e : Option DirEntry) : Option (String × Int) :=
  match e with
  | none => none
  | some ent =>
    match ent.name with
    | none => none
    | some n =>
      if strStartsWith n pre && strEndsWith n ".swf" then
        match ent.mtime with
        | none => none
        | some t => some (n, t)
      else none

end Game

/-! ## The bundled default configuration (`config.rs` `Default` impls) -/

namespace Config

/-- `impl Default for FlashPlayerConfig` (`config.rs:27-48`). -/
def defaultFlashPlayerConfig : FlashPlayerConfig :=
  { fallback_version := "32.0.0.465"
    windows :=
      { primary_url := "https://www.flash.cn/cdm/latest/flashplayer_sa.exe"
        fallback_url := some
          "https://fpdownload.macromedia.com/pub/flashplayer/updaters/32/flashplayer_32_sa.exe"
        filename := "flashplayer_sa.exe" }
    macos :=
      { primary_url :=
          "https://fpdownload.macromedia.com/pub/flashplayer/updaters/32/flashplayer_32_sa.dmg"
        fallback_url := none
        filename := "Flash Player.app" }
    linux :=
      { primary_url :=
          "https://fpdownload.macromedia.com/pub/flashplayer/updaters/32/flash_player_sa_linux.x86_64.tar.gz"
        fallback_url := some
          "https://archive.org/download/flashplayer_standalone_projectors/flash_player_sa_linux.x86_64.tar.gz"
        filename := "flashplayer" }}

/-- `impl Default for RuffleConfig` (`config.rs:65-83`). -/
def defaultRuffleConfig : RuffleConfig :=
  { windows :=
      { url := "https://github.com/ruffle-rs/ruffle/releases/download/nightly-2026-02-09/ruffle-nightly-2026_02_09-windows-x86_64.zip"
        filename := "ruffle.exe" }
    macos :=
      { url := "https://github.com/ruffle-rs/ruffle/releases/download/nightly-2026-02-09/ruffle-nightly-2026_02_09-macos-universal.tar.gz"
        filename := "ruffle" }
    linux :=
      { url := "https://github.com/ruffle-rs/ruffle/releases/download/nightly-2026-02-09/ruffle-nightly-2026_02_09-linux-x86_64.tar.gz"
        filename := "ruffle" }}

/-- `impl Default for AppConfig` (`config.rs:93-128`). -/
def defaultAppConfig : AppConfig :=
  { flash_player := defaultFlashPlayerConfig
    ruffle := defaultRuffleConfig
    game_urls :=
      [("PTD1", "https://ptd.onl/ptd1-latest.swf"),
       ("PTD1_Hacked", "https://ptd.onl/ptd1-hacked-latest.swf"),
       ("PTD2", "https://ptd.onl/ptd2-latest.swf"),
       ("PTD2_Hacked", "https://ptd.onl/ptd2-hacked-latest.swf"),
       ("PTD3", "https://ptd.onl/ptd3-latest.swf"),
       ("PTD3_Hacked", "https://ptd.onl/ptd3-hacked-latest.swf")] }

/-- `Settings::default()` (serde `Default` derive: every field `None`). -/
def defaultSettings : Settings :=
  { flash_player_path := none
    use_ruffle := none
    ruffle_path := none
    sound_enabled := none }

/-- `GameVersions::default()`. -/
def defaultGameVersions : GameVersions :=
  { flash_player := ""
    ruffle := ""
    games := [] }

end Config

/-! ## Basic lemmas about the filesystem model -/

lemma fsGet_fsRemove_self (fs : FS) (p : String) : fsGet (fsRemove fs p) p = none := by
  induction fs with
  | nil => rfl
  | cons hd t ih =>
    obtain ⟨q, c⟩ := hd
    by_cases hq : q = p <;> simp [fsRemove, fsGet, hq, ih]

lemma fsGet_fsRemove_ne (fs : FS) (p q : String) (h : q ≠ p) :
    fsGet (fsRemove fs p) q = fsGet fs q := by
  induction fs with
  | nil => rfl
  | cons hd t ih =>
    obtain ⟨r, c⟩ := hd
    have hpq : ¬ p = q := fun hh => h hh.symm
    by_cases hr : r = p
    · have hrq : ¬ r = q := by
        intro hh
        exact h (by rw [← hh, hr])
      simp [fsRemove, fsGet, hr, hrq, hpq, ih]
    · by_cases hrq : r = q
      · simp [fsRemove, fsGet, hr, hrq, h]
      · simp [fsRemove, fsGet, hr, hrq, ih]

lemma fsGet_fsSet_self (fs : FS) (p : String) (c : List Nat) :
    fsGet (fsSet fs p c) p = some c := by
  simp [fsSet, fsGet]

lemma fsGet_fsSet_ne (fs : FS) (p q : String) (c : List Nat) (h : q ≠ p) :
    fsGet (fsSet fs p c) q = fsGet fs q := by
  have hpq : ¬ p = q := fun hh => h hh.symm
  simp [fsSet, fsGet, hpq, fsGet_fsRemove_ne fs p q h]

lemma fsGet_fsAppend_self (fs : FS) (p : String) (b cur : List Nat)
    (h : fsGet fs p = some cur) : fsGet (fsAppend fs p b) p = some (cur ++ b) := by
  simp [fsAppend, fsGet_fsSet_self, h]

lemma fsGet_fsAppend_ne (fs : FS) (p q : String) (b : List Nat) (h : q ≠ p) :
    fsGet (fsAppend fs p b) q = fsGet fs q := by
  simp [fsAppend, fsGet_fsSet_ne fs p q _ h]

/-! ## Characterization of the flash download loop -/

lemma flashLoop_ok_char (item dest tmp : String) (total : Nat) (hne : tmp ≠ dest) :
    ∀ (chunks : List (Except String (List Nat))) (d : Nat) (fs : FS)
      (evs : List DownloadProgress) (cur : List Nat),
      fsGet fs tmp = some cur →
      (Flash.downloadLoop item dest tmp total chunks d fs evs).result = .ok () →
      fsGet (Flash.downloadLoop item dest tmp total chunks d fs evs).fs tmp = none ∧
      fsGet (Flash.downloadLoop item dest tmp total chunks d fs evs).fs dest =
        some (cur ++ okBytes chunks) := by
  intro chunks
  induction chunks with
  | nil =>
    intro d fs evs cur hcur _
    simp only [Flash.downloadLoop, fsRename, hcur, okBytes, List.append_nil]
    exact ⟨by rw [fsGet_fsSet_ne _ dest tmp _ hne]; exact fsGet_fsRemove_self fs tmp,
      fsGet_fsSet_self _ dest cur⟩
  | cons hd rest ih =>
    intro d fs evs cur hcur hok
    match hd with
    | .error e => simp [Flash.downloadLoop] at hok
    | .ok c =>
      by_cases hblow : Flash.MAX_DOWNLOAD_SIZE < d + c.length
      · simp [Flash.downloadLoop, hblow] at hok
      · have hcur' : fsGet (fsAppend fs tmp c) tmp = some (cur ++ c) :=
          fsGet_fsAppend_self fs tmp c cur hcur
        have hok' : (Flash.downloadLoop item dest tmp total rest (d + c.length)
            (fsAppend fs tmp c) (evs ++ [⟨item, progressValue (d + c.length) total,
              d + c.length, total, "Downloading..."⟩])).result = .ok () := by
          simpa [Flash.downloadLoop, hblow] using hok
        have := ih (d + c.length) (fsAppend fs tmp c)
          (evs ++ [⟨item, progressValue (d + c.length) total, d + c.length, total,
            "Downloading..."⟩]) (cur ++ c) hcur' hok'
        simpa [Flash.downloadLoop, hblow, okBytes, List.append_assoc] using this

lemma flashLoop_dest_stable (item dest tmp : String) (total : Nat) (hne : tmp ≠ dest) :
    ∀ (chunks : List (Except String (List Nat))) (d : Nat) (fs : FS)
      (evs : List DownloadProgress) (e : String),
      (Flash.downloadLoop item dest tmp total chunks d fs evs).result = .error e →
      fsGet (Flash.downloadLoop item dest tmp total chunks d fs evs).fs dest = fsGet fs dest := by
  intro chunks
  induction chunks with
  | nil => intro d fs evs e he; simp [Flash.downloadLoop] at he
  | cons hd rest ih =>
    intro d fs evs e he
    have hdne : dest ≠ tmp := fun hh => hne hh.symm
    match hd with
    | .error e' => simp [Flash.downloadLoop]
    | .ok c =>
      by_cases hblow : Flash.MAX_DOWNLOAD_SIZE < d + c.length
      · simp [Flash.downloadLoop, hblow, fsGet_fsRemove_ne fs tmp dest hdne]
      · have he' : (Flash.downloadLoop item dest tmp total rest (d + c.length)
            (fsAppend fs tmp c) (evs ++ [⟨item, progressValue (d + c.length) total,
              d + c.length, total, "Downloading..."⟩])).result = .error e := by
          simpa [Flash.downloadLoop, hblow] using he
        have := ih (d + c.length) (fsAppend fs tmp c)
          (evs ++ [⟨item, progressValue (d + c.length) total, d + c.length, total,
            "Downloading..."⟩]) e he'
        simpa [Flash.downloadLoop, hblow, fsGet_fsAppend_ne fs tmp dest c hdne] using this

lemma flashLoop_blown (item dest tmp : String) (total : Nat) :
    ∀ (chunks : List (Except String (List Nat))) (d : Nat) (fs : FS)
      (evs : List DownloadProgress),
      Flash.sizeBlown chunks d = true →
      (Flash.downloadLoop item dest tmp total chunks d fs evs).result =
          .error "Download exceeded maximum allowed size" ∧
        fsGet (Flash.downloadLoop item dest tmp total chunks d fs evs).fs tmp = none := by
  intro chunks
  induction chunks with
  | nil => intro d fs evs hb; simp [Flash.sizeBlown] at hb
  | cons hd rest ih =>
    intro d fs evs hb
    match hd with
    | .error e => simp [Flash.sizeBlown] at hb
    | .ok c =>
      by_cases hblow : Flash.MAX_DOWNLOAD_SIZE < d + c.length
      · exact ⟨by simp [Flash.downloadLoop, hblow],
          by simp [Flash.downloadLoop, hblow, fsGet_fsRemove_self]⟩
      · have hb' : Flash.sizeBlown rest (d + c.length) = true := by
          simpa [Flash.sizeBlown, hblow] using hb
        have := ih (d + c.length) (fsAppend fs tmp c)
          (evs ++ [⟨item, progressValue (d + c.length) total, d + c.length, total,
            "Downloading..."⟩]) hb'
        simpa [Flash.downloadLoop, hblow] using this

lemma flashLoop_events (item dest tmp : String) (total : Nat) :
    ∀ (chunks : List (Except String (List Nat))) (d : Nat) (fs : FS)
      (evs : List DownloadProgress),
      (Flash.downloadLoop item dest tmp total chunks d fs evs).events =
        evs ++ Flash.eventsFrom item total chunks d := by
  intro chunks
  induction chunks with
  | nil => intro d fs evs; simp [Flash.downloadLoop, Flash.eventsFrom]
  | cons hd rest ih =>
    intro d fs evs
    match hd with
    | .error e => simp [Flash.downloadLoop, Flash.eventsFrom]
    | .ok c =>
      by_cases hblow : Flash.MAX_DOWNLOAD_SIZE < d + c.length
      · simp [Flash.downloadLoop, Flash.eventsFrom, hblow]
      · simp [Flash.downloadLoop, Flash.eventsFrom, hblow, ih]

/-! ## Characterization of the ruffle and game download loops -/

lemma ruffleLoop_dest (item dest : String) (total : Nat) :
    ∀ (chunks : List (Except String (List Nat))) (d : Nat) (fs : FS)
      (evs : List DownloadProgress) (cur : List Nat),
      fsGet fs dest = some cur →
      fsGet (Ruffle.downloadLoop item dest total chunks d fs evs).fs dest =
        some (cur ++ okBytes chunks) := by
  intro chunks
  induction chunks with
  | nil => intro d fs evs cur hcur; simpa [Ruffle.downloadLoop, okBytes] using hcur
  | cons hd rest ih =>
    intro d fs evs cur hcur
    match hd with
    | .error e => simpa [Ruffle.downloadLoop, okBytes] using hcur
    | .ok c =>
      have := ih (d + c.length) (fsAppend fs dest c)
        (evs ++ [⟨item, progressValue (d + c.length) total, d + c.length, total,
          "Downloading..."⟩]) (cur ++ c) (fsGet_fsAppend_self fs dest c cur hcur)
      simpa [Ruffle.downloadLoop, okBytes, List.append_assoc] using this

lemma gameLoop_dest (item dest : String) (total : Nat) :
    ∀ (chunks : List (Except String (List Nat))) (d : Nat) (fs : FS)
      (evs : List DownloadProgress) (cur : List Nat),
      fsGet fs dest = some cur →
      fsGet (Game.downloadLoop item dest total chunks d fs evs).fs dest =
        some (cur ++ okBytes chunks) := by
  intro chunks
  induction chunks with
  | nil => intro d fs evs cur hcur; simpa [Game.downloadLoop, okBytes] using hcur
  | cons hd rest ih =>
    intro d fs evs cur hcur
    match hd with
    | .error e => simpa [Game.downloadLoop, okBytes] using hcur
    | .ok c =>
      have := ih (d + c.length) (fsAppend fs dest c)
        (evs ++ [⟨item, progressValue (d + c.length) total, d + c.length, total,
          "Downloading..."⟩]) (cur ++ c) (fsGet_fsAppend_self fs dest c cur hcur)
      simpa [Game.downloadLoop, okBytes, List.append_assoc] using this

lemma ruffleLoop_events (item dest : String) (total : Nat) :
    ∀ (chunks : List (Except String (List Nat))) (d : Nat) (fs : FS)
      (evs : List DownloadProgress),
      (Ruffle.downloadLoop item dest total chunks d fs evs).events =
        evs ++ Ruffle.eventsFrom item total chunks d := by
  intro chunks
  induction chunks with
  | nil => intro d fs evs; simp [Ruffle.downloadLoop, Ruffle.eventsFrom]
  | cons hd rest ih =>
    intro d fs evs
    match hd with
    | .error e => simp [Ruffle.downloadLoop, Ruffle.eventsFrom]
    | .ok c => simp [Ruffle.downloadLoop, Ruffle.eventsFrom, ih]

lemma gameLoop_events (item dest : String) (total : Nat) :
    ∀ (chunks : List (Except String (List Nat))) (d : Nat) (fs : FS)
      (evs : List DownloadProgress),
      (Game.downloadLoop item dest total chunks d fs evs).events =
        evs ++ Game.eventsFrom item total chunks d := by
  intro chunks
  induction chunks with
  | nil => intro d fs evs; simp [Game.downloadLoop, Game.eventsFrom]
  | cons hd rest ih =>
    intro d fs evs
    match hd with
    | .error e => simp [Game.downloadLoop, Game.eventsFrom]
    | .ok c => simp [Game.downloadLoop, Game.eventsFrom, ih]

/-! ## Event-stream properties -/

lemma flashEventsFrom_mono (item : String) (total : Nat) :
    ∀ (chunks : List (Except String (List Nat))) (d : Nat),
      List.Chain' (· ≤ ·)
        (d :: (Flash.eventsFrom item total chunks d).map DownloadProgress.downloaded) := by
  intro chunks
  induction chunks with
  | nil => intro d; simp [Flash.eventsFrom]
  | cons hd rest ih =>
    intro d
    match hd with
    | .error e => simp [Flash.eventsFrom]
    | .ok c =>
      by_cases hblow : Flash.MAX_DOWNLOAD_SIZE < d + c.length
      · simp [Flash.eventsFrom, hblow]
      · simp only [Flash.eventsFrom, hblow, if_false, List.map_cons]
        exact List.chain'_cons.mpr ⟨Nat.le_add_right d c.length, ih (d + c.length)⟩

lemma gameEventsFrom_mono (item : String) (total : Nat) :
    ∀ (chunks : List (Except String (List Nat))) (d : Nat),
      List.Chain' (· ≤ ·)
        (d :: (Game.eventsFrom item total chunks d).map DownloadProgress.downloaded) := by
  intro chunks
  induction chunks with
  | nil => intro d; simp [Game.eventsFrom]
  | cons hd rest ih =>
    intro d
    match hd with
    | .error e => simp [Game.eventsFrom]
    | .ok c =>
      simp only [Game.eventsFrom, List.map_cons]
      exact List.chain'_cons.mpr ⟨Nat.le_add_right d c.length, ih (d + c.length)⟩

lemma flashEventsFrom_progress (item : String) (total : Nat) :
    ∀ (chunks : List (Except String (List Nat))) (d : Nat),
      ∀ ev ∈ Flash.eventsFrom item total chunks d,
        ev.progress = progressValue ev.downloaded ev.total ∧ ev.total = total := by
  intro chunks
  induction chunks with
  | nil => intro d ev hev; simp [Flash.eventsFrom] at hev
  | cons hd rest ih =>
    intro d ev hev
    match hd with
    | .error e => simp [Flash.eventsFrom] at hev
    | .ok c =>
      by_cases hblow : Flash.MAX_DOWNLOAD_SIZE < d + c.length
      · simp [Flash.eventsFrom, hblow] at hev
      · simp only [Flash.eventsFrom, hblow, if_false, List.mem_cons] at hev
        rcases hev with h | h
        · subst h; exact ⟨rfl, rfl⟩
        · exact ih (d + c.length) ev h

lemma ruffleEventsFrom_progress (item : String) (total : Nat) :
    ∀ (chunks : List (Except String (List Nat))) (d : Nat),
      ∀ ev ∈ Ruffle.eventsFrom item total chunks d,
        ev.progress = progressValue ev.downloaded ev.total ∧ ev.total = total := by
  intro chunks
  induction chunks with
  | nil => intro d ev hev; simp [Ruffle.eventsFrom] at hev
  | cons hd rest ih =>
    intro d ev hev
    match hd with
    | .error e => simp [Ruffle.eventsFrom] at hev
    | .ok c =>
      simp only [Ruffle.eventsFrom, List.mem_cons] at hev
      rcases hev with h | h
      · subst h; exact ⟨rfl, rfl⟩
      · exact ih (d + c.length) ev h

/-! ## Characterization of the versioned-game scan -/

lemma scanStep_entryMatch (dir pre : String) (acc : Option String × Int)
    (e : Option Game.DirEntry) :
    Game.scanStep dir pre acc e =
      match Game.entryMatch pre e with
      | none => acc
      | some (n, t) => if acc.2 < t then (some (dir ++ "/" ++ n), t) else acc := by
  match e with
  | none => rfl
  | some ent =>
    match hn : ent.name with
    | none => simp [Game.scanStep, Game.entryMatch, hn]
    | some n =>
      by_cases hc : strStartsWith n pre && strEndsWith n ".swf"
      · match ht : ent.mtime with
        | none => simp [Game.scanStep, Game.entryMatch, hn, hc, ht]
        | some t => simp [Game.scanStep, Game.entryMatch, hn, hc, ht]
      · simp [Game.scanStep, Game.entryMatch, hn, hc]

lemma scanFold_le (dir pre : String) :
    ∀ (es : List (Option Game.DirEntry)) (acc : Option String × Int),
      acc.2 ≤ (es.foldl (Game.scanStep dir pre) acc).2 := by
  intro es
  induction es with
  | nil => intro acc; exact le_refl _
  | cons e rest ih =>
    intro acc
    have hstep : acc.2 ≤ (Game.scanStep dir pre acc e).2 := by
      rw [scanStep_entryMatch]
      match Game.entryMatch pre e with
      | none => exact le_refl _
      | some (n, t) =>
        by_cases hlt : acc.2 < t
        · simp [hlt]; exact le_of_lt hlt
        · simp [hlt]
    calc acc.2 ≤ (Game.scanStep dir pre acc e).2 := hstep
      _ ≤ _ := ih (Game.scanStep dir pre acc e)

lemma scanFold_max (dir pre : String) :
    ∀ (es : List (Option Game.DirEntry)) (acc : Option String × Int),
      ∀ e ∈ es, ∀ n t, Game.entryMatch pre e = some (n, t) →
        t ≤ (es.foldl (Game.scanStep dir pre) acc).2 := by
  intro es
  induction es with
  | nil => intro acc e he; simp at he
  | cons e0 rest ih =>
    intro acc e he n t hm
    rcases List.mem_cons.mp he with he0 | herest
    · subst he0
      have hstep : t ≤ (Game.scanStep dir pre acc e).2 := by
        rw [scanStep_entryMatch, hm]
        by_cases hlt : acc.2 < t
        · simp [hlt]
        · simp [hlt]; exact le_of_not_lt hlt
      calc t ≤ (Game.scanStep dir pre acc e).2 := hstep
        _ ≤ _ := scanFold_le dir pre rest _
    · exact ih (Game.scanStep dir pre acc e0) e herest n t hm

lemma scanFold_some (dir pre : String) :
    ∀ (es : List (Option Game.DirEntry)) (acc : Option String × Int),
      es.foldl (Game.scanStep dir pre) acc = acc ∨
        ∃ e ∈ es, ∃ n t, Game.entryMatch pre e = some (n, t) ∧
          es.foldl (Game.scanStep dir pre) acc = (some (dir ++ "/" ++ n), t) ∧ acc.2 < t := by
  intro es
  induction es with
  | nil => intro acc; exact Or.inl rfl
  | cons e0 rest ih =>
    intro acc
    have hstep := scanStep_entryMatch dir pre acc e0
    rcases hm : Game.entryMatch pre e0 with _ | ⟨n0, t0⟩
    · have hacc : Game.scanStep dir pre acc e0 = acc := by rw [hstep, hm]
      rcases ih (Game.scanStep dir pre acc e0) with h | ⟨e, he, n, t, hmm, hr, hlt⟩
      · exact Or.inl (by rw [List.foldl_cons]; rw [hacc] at h ⊢; exact h)
      · exact Or.inr ⟨e, List.mem_cons_of_mem _ he, n, t, hmm,
          by rw [List.foldl_cons]; exact hr, by rw [hacc] at hlt; exact hlt⟩
    · by_cases hlt : acc.2 < t0
      · have hacc : Game.scanStep dir pre acc e0 = (some (dir ++ "/" ++ n0), t0) := by
          rw [hstep, hm]; simp [hlt]
        rcases ih (Game.scanStep dir pre acc e0) with h | ⟨e, he, n, t, hmm, hr, hlt2⟩
        · refine Or.inr ⟨e0, List.mem_cons_self _ _, n0, t0, hm, ?_, hlt⟩
          rw [List.foldl_cons, h, hacc]
        · refine Or.inr ⟨e, List.mem_cons_of_mem _ he, n, t, hmm,
            by rw [List.foldl_cons]; exact hr, ?_⟩
          rw [hacc] at hlt2
          exact lt_trans hlt hlt2
      · have hacc : Game.scanStep dir pre acc e0 = acc := by
          rw [hstep, hm]; simp [hlt]
        rcases ih (Game.scanStep dir pre acc e0) with h | ⟨e, he, n, t, hmm, hr, hlt2⟩
        · exact Or.inl (by rw [List.foldl_cons]; rw [hacc] at h ⊢; exact h)
        · exact Or.inr ⟨e, List.mem_cons_of_mem _ he, n, t, hmm,
            by rw [List.foldl_cons]; exact hr, by rw [hacc] at hlt2; exact hlt2⟩

lemma scanFold_none (dir pre : String) :
    ∀ (es : List (Option Game.DirEntry)) (acc : Option String × Int),
      (es.foldl (Game.scanStep dir pre) acc).1 = none →
      acc.1 = none ∧ ∀ e ∈ es, ∀ n t, Game.entryMatch pre e = some (n, t) → t ≤ acc.2 := by
  intro es
  induction es with
  | nil => intro acc h; exact ⟨h, by intro e he; simp at he⟩
  | cons e0 rest ih =>
    intro acc h
    rw [List.foldl_cons] at h
    obtain ⟨hacc', hrest⟩ := ih (Game.scanStep dir pre acc e0) h
    have hstep := scanStep_entryMatch dir pre acc e0
    rcases hm : Game.entryMatch pre e0 with _ | ⟨n0, t0⟩
    · have heq : Game.scanStep dir pre acc e0 = acc := by rw [hstep, hm]
      rw [heq] at hacc' hrest
      refine ⟨hacc', ?_⟩
      intro e he n t hmm
      rcases List.mem_cons.mp he with he0 | herest
      · subst he0; rw [hm] at hmm; cases hmm
      · exact hrest e herest n t hmm
    · by_cases hlt : acc.2 < t0
      · have heq : Game.scanStep dir pre acc e0 = (some (dir ++ "/" ++ n0), t0) := by
          rw [hstep, hm]; simp [hlt]
        rw [heq] at hacc'
        cases hacc'
      · have heq : Game.scanStep dir pre acc e0 = acc := by
          rw [hstep, hm]; simp [hlt]
        rw [heq] at hacc' hrest
        refine ⟨hacc', ?_⟩
        intro e he n t hmm
        rcases List.mem_cons.mp he with he0 | herest
        · subst he0
          rw [hm] at hmm
          cases hmm
          exact le_of_not_lt hlt
        · exact hrest e herest n t hmm

lemma scanFold_keep (dir pre : String) :
    ∀ (es : List (Option Game.DirEntry)) (acc : Option String × Int),
      (∀ e ∈ es, ∀ n t, Game.entryMatch pre e = some (n, t) → t ≤ acc.2) →
      es.foldl (Game.scanStep dir pre) acc = acc := by
  intro es
  induction es with
  | nil => intro acc _; rfl
  | cons e0 rest ih =>
    intro acc hall
    have hstep := scanStep_entryMatch dir pre acc e0
    have heq : Game.scanStep dir pre acc e0 = acc := by
      rw [hstep]
      rcases hm : Game.entryMatch pre e0 with _ | ⟨n0, t0⟩
      · rfl
      · have := hall e0 (List.mem_cons_self _ _) n0 t0 hm
        simp [not_lt.mpr this]
    rw [List.foldl_cons, heq]
    exact ih acc (fun e he n t hmm => hall e (List.mem_cons_of_mem _ he) n t hmm)

/-! ## Claim theorems -/

/-- C1, counterexample: the ruffle downloader writes into the final
destination path directly. A transport error after the first chunk leaves
the destination file existing, partially written (3 of the declared 10
bytes), on a filesystem where it did not exist before — contradicting
"the destination path is either absent or fully written, never partially
written" and "never writing into the final destination path directly". -/
theorem c1_counterexample :
    (Ruffle.download_file_with_progress "ruffle" "R/a.zip"
      ⟨200, some 10, [.ok [1, 2, 3], .error "reset"]⟩ []).result =
        .error "Download error: reset" ∧
    fsGet (Ruffle.download_file_with_progress "ruffle" "R/a.zip"
      ⟨200, some 10, [.ok [1, 2, 3], .error "reset"]⟩ []).fs "R/a.zip" = some [1, 2, 3] := by
  decide

/-- C1, amended: only the **flash-player** downloader streams to the
temporary sibling `dest.with_extension("part")` and atomically renames it on
success (so the temp file is gone, the destination holds exactly the
streamed bytes, and a failed attempt leaves the destination untouched); the
**ruffle** and **game** downloaders create the destination file directly and
stream into it, so after any attempt whose HTTP status was 2xx the
destination holds exactly the bytes received so far, fully written only
when the stream ended without error. -/
theorem c1_amended_publication (item dest : String) (resp : HttpResponse) (fs : FS)
    (hne : withExtension dest "part" ≠ dest) :
    ((Flash.download_file_with_progress item dest resp fs).result = .ok () →
      fsGet (Flash.download_file_with_progress item dest resp fs).fs
          (withExtension dest "part") = none ∧
        fsGet (Flash.download_file_with_progress item dest resp fs).fs dest =
          some (okBytes resp.chunks)) ∧
    (∀ e, (Flash.download_file_with_progress item dest resp fs).result = .error e →
      fsGet (Flash.download_file_with_progress item dest resp fs).fs dest = fsGet fs dest) ∧
    (statusIsSuccess resp.status = true →
      fsGet (Ruffle.download_file_with_progress item dest resp fs).fs dest =
        some (okBytes resp.chunks)) ∧
    (statusIsSuccess resp.status = true →
      fsGet (Game.download_file_with_progress item dest resp fs).fs dest =
        some (okBytes resp.chunks)) := by
  have hdne : dest ≠ withExtension dest "part" := fun hh => hne hh.symm
  refine ⟨?_, ?_, ?_, ?_⟩
  · intro hok
    by_cases hs : statusIsSuccess resp.status
    · by_cases hcl : Flash.MAX_DOWNLOAD_SIZE < (resp.content_length).getD 0
      · simp [Flash.download_file_with_progress, hs, hcl] at hok
      · have := flashLoop_ok_char item dest (withExtension dest "part")
          ((resp.content_length).getD 0) hne resp.chunks 0 (fsSet fs (withExtension dest "part") []) []
          [] (fsGet_fsSet_self fs (withExtension dest "part") [])
          (by simpa [Flash.download_file_with_progress, hs, hcl] using hok)
        simpa [Flash.download_file_with_progress, hs, hcl] using this
    · simp [Flash.download_file_with_progress, hs] at hok
  · intro e herr
    by_cases hs : statusIsSuccess resp.status
    · by_cases hcl : Flash.MAX_DOWNLOAD_SIZE < (resp.content_length).getD 0
      · simp [Flash.download_file_with_progress, hs, hcl]
      · have := flashLoop_dest_stable item dest (withExtension dest "part")
          ((resp.content_length).getD 0) hne resp.chunks 0
          (fsSet fs (withExtension dest "part") []) [] e
          (by simpa [Flash.download_file_with_progress, hs, hcl] using herr)
        rw [fsGet_fsSet_ne fs (withExtension dest "part") dest [] hdne] at this
        simpa [Flash.download_file_with_progress, hs, hcl] using this
    · simp [Flash.download_file_with_progress, hs]
  · intro hs
    have := ruffleLoop_dest item dest ((resp.content_length).getD 0) resp.chunks 0
      (fsSet fs dest []) [] [] (fsGet_fsSet_self fs dest [])
    simpa [Ruffle.download_file_with_progress, hs] using this
  · intro hs
    have := gameLoop_dest item dest ((resp.content_length).getD 0) resp.chunks 0
      (fsSet fs dest []) [] [] (fsGet_fsSet_self fs dest [])
    simpa [Game.download_file_with_progress, hs] using this

/-- C1, witness for the amended theorem: a concrete successful flash download
(dest `F/x.exe`, temp `F/x.part`, two chunks) publishes exactly the streamed
bytes and removes the temp file. -/
theorem c1_amended_publication_witness :
    fsGet (Flash.download_file_with_progress "flash_player" "F/x.exe"
        ⟨200, some 3, [.ok [5, 6], .ok [7]]⟩ []).fs (withExtension "F/x.exe" "part") = none ∧
    fsGet (Flash.download_file_with_progress "flash_player" "F/x.exe"
        ⟨200, some 3, [.ok [5, 6], .ok [7]]⟩ []).fs "F/x.exe" = some [5, 6, 7] := by
  have h := (c1_amended_publication "flash_player" "F/x.exe"
    ⟨200, some 3, [.ok [5, 6], .ok [7]]⟩ [] (by decide)).1 (by decide)
  simpa using h

/-- C2, counterexample: the ruffle downloader enforces no size limit at all.
With a declared content length of 600 MiB — above the 500 MiB limit the
claim says applies to every download operation — the call does not fail
with a too-large error: it succeeds and writes body bytes to the
destination. -/
theorem c2_counterexample :
    (Ruffle.download_file_with_progress "ruffle" "R/a.zip"
      ⟨200, some (600 * 1024 * 1024), [.ok [7]]⟩ []).result = .ok () ∧
    fsGet (Ruffle.download_file_with_progress "ruffle" "R/a.zip"
      ⟨200, some (600 * 1024 * 1024), [.ok [7]]⟩ []).fs "R/a.zip" = some [7] ∧
    Flash.MAX_DOWNLOAD_SIZE < 600 * 1024 * 1024 := by
  refine ⟨by decide, by decide, by norm_num [Flash.MAX_DOWNLOAD_SIZE]⟩

/-- C2, amended: only the **flash-player** downloader enforces the
500 MiB size limit: a declared content length above the limit fails
immediately with the too-large error, leaving the filesystem untouched
(zero bytes written to any destination or temporary file) and emitting no
progress event; and whenever the running byte count exceeds the limit
mid-stream, it deletes the temporary file and fails with the
size-exceeded error. The ruffle and game downloaders enforce no limit. -/
theorem c2_amended_size_limit (item dest : String) (resp : HttpResponse) (fs : FS) :
    (statusIsSuccess resp.status = true →
      Flash.MAX_DOWNLOAD_SIZE < (resp.content_length).getD 0 →
      Flash.download_file_with_progress item dest resp fs =
        ⟨fs, [], .error ("Remote file too large: " ++
          toString ((resp.content_length).getD 0) ++ " bytes")⟩) ∧
    (statusIsSuccess resp.status = true →
      (resp.content_length).getD 0 ≤ Flash.MAX_DOWNLOAD_SIZE →
      Flash.sizeBlown resp.chunks 0 = true →
      (Flash.download_file_with_progress item dest resp fs).result =
          .error "Download exceeded maximum allowed size" ∧
        fsGet (Flash.download_file_with_progress item dest resp fs).fs
          (withExtension dest "part") = none) := by
  constructor
  · intro hs hcl
    simp [Flash.download_file_with_progress, hs, hcl]
  · intro hs hcl hblown
    have := flashLoop_blown item dest (withExtension dest "part")
      ((resp.content_length).getD 0) resp.chunks 0
      (fsSet fs (withExtension dest "part") []) [] hblown
    simpa [Flash.download_file_with_progress, hs, not_lt.mpr hcl] using this

/-- C2, witness for the amended theorem: a declared 600 MiB length makes
the flash downloader fail with the too-large error and leave the (empty)
filesystem untouched, and a stream whose running count tops the limit makes
it fail with the size-exceeded error with the temp file removed. -/
theorem c2_amended_size_limit_witness :
    Flash.download_file_with_progress "flash_player" "F/x.exe"
        ⟨200, some (600 * 1024 * 1024), [.ok [7]]⟩ [] =
      ⟨[], [], .error ("Remote file too large: " ++ toString (600 * 1024 * 1024) ++ " bytes")⟩ ∧
    (Flash.download_file_with_progress "flash_player" "F/x.exe"
        ⟨200, none, [.ok (List.replicate (500 * 1024 * 1024 + 1) 0)]⟩ []).result =
      .error "Download exceeded maximum allowed size" := by
  constructor
  · exact (c2_amended_size_limit "flash_player" "F/x.exe"
      ⟨200, some (600 * 1024 * 1024), [.ok [7]]⟩ [] ).1 (by decide)
      (by norm_num [Flash.MAX_DOWNLOAD_SIZE])
  · have hlen : (List.replicate (500 * 1024 * 1024 + 1) (0 : Nat)).length =
        500 * 1024 * 1024 + 1 := List.length_replicate _ _
    have hblown : Flash.sizeBlown [.ok (List.replicate (500 * 1024 * 1024 + 1) (0 : Nat))] 0 =
        true := by
      simp only [Flash.sizeBlown, hlen, Nat.zero_add]
      norm_num [Flash.MAX_DOWNLOAD_SIZE]
    exact ((c2_amended_size_limit "flash_player" "F/x.exe"
      ⟨200, none, [.ok (List.replicate (500 * 1024 * 1024 + 1) 0)]⟩ []).2 (by decide)
      (by simp) hblown).1

/-- C3: in `download_flash`, when the primary attempt fails and no fallback
URL is configured, the phase issues no further request and fails with the
primary attempt's exact error; when a fallback URL `u` is configured,
exactly one additional request (to `u`) is made, and if that attempt also
fails the phase fails with the fallback attempt's error. -/
theorem c3_flash_fallback_policy (net : String → HttpResponse) (primary u dest : String)
    (fs : FS) (e : String)
    (hp : (Flash.download_file_with_progress "flash_player" dest (net primary) fs).result =
      .error e) :
    ((Flash.download_flash_attempts net primary none dest fs).requests = [primary] ∧
      (Flash.download_flash_attempts net primary none dest fs).run.result = .error e) ∧
    ((Flash.download_flash_attempts net primary (some u) dest fs).requests = [primary, u] ∧
      ∀ e', (Flash.download_file_with_progress "flash_player" dest (net u)
          (Flash.download_file_with_progress "flash_player" dest (net primary) fs).fs).result =
            .error e' →
        (Flash.download_flash_attempts net primary (some u) dest fs).run.result = .error e') := by
  refine ⟨⟨?_, ?_⟩, ⟨?_, ?_⟩⟩
  · simp [Flash.download_flash_attempts, hp, Except.isOk, Except.toBool]
  · simp [Flash.download_flash_attempts, hp, Except.isOk, Except.toBool, errOf]
  · simp [Flash.download_flash_attempts, hp, Except.isOk, Except.toBool]
  · intro e' he'
    simp [Flash.download_flash_attempts, hp, Except.isOk, Except.toBool, he']

/-- C3, witness: a network where the primary URL answers 500 and the
fallback URL answers 404. Without a fallback the phase reports the primary's
`HTTP error: 500`; with one it requests both URLs and reports the
fallback's `HTTP error: 404`. -/
theorem c3_flash_fallback_policy_witness :
    ((Flash.download_flash_attempts
        (fun url => if url = "p" then ⟨500, none, []⟩ else ⟨404, none, []⟩)
        "p" none "F/x.exe" []).requests = ["p"] ∧
      (Flash.download_flash_attempts
        (fun url => if url = "p" then ⟨500, none, []⟩ else ⟨404, none, []⟩)
        "p" none "F/x.exe" []).run.result = .error "HTTP error: 500") ∧
    ((Flash.download_flash_attempts
        (fun url => if url = "p" then ⟨500, none, []⟩ else ⟨404, none, []⟩)
        "p" (some "q") "F/x.exe" []).requests = ["p", "q"] ∧
      (Flash.download_flash_attempts
        (fun url => if url = "p" then ⟨500, none, []⟩ else ⟨404, none, []⟩)
        "p" (some "q") "F/x.exe" []).run.result = .error "HTTP error: 404") := by
  have h := c3_flash_fallback_policy
    (fun url => if url = "p" then ⟨500, none, []⟩ else ⟨404, none, []⟩)
    "p" "q" "F/x.exe" [] "HTTP error: 500" (by decide)
  exact ⟨⟨h.1.1, h.1.2⟩, ⟨h.2.1, h.2.2 "HTTP error: 404" (by decide)⟩⟩

/-- C4, counterexample: `check_ruffle_installed` unwraps the lock result, so
with a poisoned settings lock the command panics (`none`) instead of
obtaining the last-written settings value and proceeding — while the same
probe on the flash side recovers and answers. -/
theorem c4_counterexample :
    Ruffle.check_ruffle_installed (fun _ => false) (.ok "R") Config.defaultAppConfig .linux
        ⟨Config.defaultSettings, true⟩ = none ∧
    Flash.check_flash_installed (fun _ => false) (.ok "F") Config.defaultAppConfig .linux
        ⟨Config.defaultSettings, true⟩ = some false := by
  exact ⟨rfl, rfl⟩

/-- C4, amended: every settings-lock operation **except**
`check_ruffle_installed` and `get_ruffle_path` recovers from a poisoned lock
via `PoisonError::into_inner`, obtaining the last-written value and
proceeding exactly as with a healthy lock; those two ruffle commands call
`.lock().unwrap()` and panic when the lock is poisoned. -/
theorem c4_amended_poison_recovery (ex : String → Bool) (fdir rdir : Except String String)
    (cfg : Config.AppConfig) (os : OS) (v new : Config.Settings)
    (persist : Config.Settings → Except String Unit) :
    (Flash.check_flash_installed ex fdir cfg os ⟨v, true⟩ =
        Flash.check_flash_installed ex fdir cfg os ⟨v, false⟩ ∧
      (Flash.check_flash_installed ex fdir cfg os ⟨v, false⟩).isSome = true) ∧
    (Flash.get_flash_path ex fdir cfg os ⟨v, true⟩ =
        Flash.get_flash_path ex fdir cfg os ⟨v, false⟩ ∧
      (Flash.get_flash_path ex fdir cfg os ⟨v, false⟩).isSome = true) ∧
    Lib.get_settings ⟨v, true⟩ = some v ∧
    ((Lib.save_settings persist new ⟨v, true⟩).1.value = new ∧
      ((Lib.save_settings persist new ⟨v, true⟩).2).isSome = true) ∧
    Ruffle.check_ruffle_installed ex rdir cfg os ⟨v, true⟩ = none ∧
    Ruffle.get_ruffle_path_cmd ex rdir cfg os ⟨v, true⟩ = none := by
  exact ⟨⟨rfl, rfl⟩, ⟨rfl, rfl⟩, rfl, ⟨rfl, rfl⟩, rfl, rfl⟩

/-- C5: path resolution gives the user override exactly when it is present
and currently exists on disk, and otherwise the OS-conventional default
(install directory joined with the configured filename) — even when the
override field is non-empty; and the installation check is the existence
probe of the resolved path. -/
theorem c5_resolve_path_precedence :
    (∀ (ex : String → Bool) (fdir : Except String String) (cfg : Config.AppConfig) (os : OS)
      (s : Config.Settings) (p : String), s.flash_player_path = some p → ex p = true →
        Config.get_flash_player_path ex fdir cfg os s = .ok p) ∧
    (∀ ex fdir cfg os (s : Config.Settings) p, s.flash_player_path = some p → ex p = false →
        Config.get_flash_player_path ex fdir cfg os s =
          fdir.map (fun d => d ++ "/" ++ (Config.flashOsCfg cfg os).filename)) ∧
    (∀ ex fdir cfg os (s : Config.Settings), s.flash_player_path = none →
        Config.get_flash_player_path ex fdir cfg os s =
          fdir.map (fun d => d ++ "/" ++ (Config.flashOsCfg cfg os).filename)) ∧
    (∀ (ex : String → Bool) rdir cfg os (s : Config.Settings) p, s.ruffle_path = some p →
        ex p = true → Config.get_ruffle_path ex rdir cfg os s = .ok p) ∧
    (∀ ex rdir cfg os (s : Config.Settings) p, s.ruffle_path = some p → ex p = false →
        Config.get_ruffle_path ex rdir cfg os s =
          rdir.map (fun d => d ++ "/" ++ (Config.ruffleOsCfg cfg os).filename)) ∧
    (∀ ex rdir cfg os (s : Config.Settings), s.ruffle_path = none →
        Config.get_ruffle_path ex rdir cfg os s =
          rdir.map (fun d => d ++ "/" ++ (Config.ruffleOsCfg cfg os).filename)) ∧
    (∀ ex fdir cfg os (m : SettingsLock),
        Flash.check_flash_installed ex fdir cfg os m =
          some (match Config.get_flash_player_path ex fdir cfg os m.value with
            | .ok p => ex p
            | .error _ => false)) ∧
    (∀ ex rdir cfg os (m : SettingsLock), m.poisoned = false →
        Ruffle.check_ruffle_installed ex rdir cfg os m =
          some (match Config.get_ruffle_path ex rdir cfg os m.value with
            | .ok p => ex p
            | .error _ => false)) := by
  refine ⟨?_, ?_, ?_, ?_, ?_, ?_, ?_, ?_⟩
  · intro ex fdir cfg os s p hs hex
    simp [Config.get_flash_player_path, hs, hex]
  · intro ex fdir cfg os s p hs hex
    simp [Config.get_flash_player_path, hs, hex]
  · intro ex fdir cfg os s hs
    simp [Config.get_flash_player_path, hs]
  · intro ex rdir cfg os s p hs hex
    simp [Config.get_ruffle_path, hs, hex]
  · intro ex rdir cfg os s p hs hex
    simp [Config.get_ruffle_path, hs, hex]
  · intro ex rdir cfg os s hs
    simp [Config.get_ruffle_path, hs]
  · intro ex fdir cfg os m
    rfl
  · intro ex rdir cfg os m hm
    simp [Ruffle.check_ruffle_installed, hm]

/-- C5, witness: with the default configuration on Linux, an existing
override wins; a non-empty override that does not exist on disk falls back
to the conventional `Flash/flashplayer` default; and the installation check
is the existence probe of the resolved path. -/
theorem c5_resolve_path_precedence_witness :
    Config.get_flash_player_path (fun q => q = "/custom/fp") (.ok "F")
        Config.defaultAppConfig .linux ⟨some "/custom/fp", none, none, none⟩ = .ok "/custom/fp" ∧
    Config.get_flash_player_path (fun _ => false) (.ok "F")
        Config.defaultAppConfig .linux ⟨some "/gone/fp", none, none, none⟩ =
      (Except.ok "F").map
        (fun d => d ++ "/" ++ (Config.flashOsCfg Config.defaultAppConfig .linux).filename) ∧
    Flash.check_flash_installed (fun _ => false) (.ok "F") Config.defaultAppConfig .linux
        ⟨⟨some "/gone/fp", none, none, none⟩, false⟩ =
      some (match Config.get_flash_player_path (fun _ => false) (.ok "F")
          Config.defaultAppConfig .linux ⟨some "/gone/fp", none, none, none⟩ with
        | .ok _ => false
        | .error _ => false) := by
  refine ⟨c5_resolve_path_precedence.1 _ _ _ _ _ _ rfl (by decide), ?_, ?_⟩
  · exact c5_resolve_path_precedence.2.1 _ _ _ _ _ _ rfl rfl
  · exact c5_resolve_path_precedence.2.2.2.2.2.2.1 (fun _ => false) (.ok "F")
      Config.defaultAppConfig .linux ⟨⟨some "/gone/fp", none, none, none⟩, false⟩

/-- C9: `save_settings` replaces the in-memory shared settings value
unconditionally, and the disk write happens after: when persisting fails,
the command returns that error while the in-memory value has already been
replaced with the new settings (memory and disk are not updated
atomically). -/
theorem c9_save_settings_memory_first (persist : Config.Settings → Except String Unit)
    (new : Config.Settings) (m : SettingsLock) :
    (Lib.save_settings persist new m).1.value = new ∧
    ∀ e, persist new = .error e →
      (Lib.save_settings persist new m).2 = some (.error e) := by
  refine ⟨rfl, ?_⟩
  intro e he
  simp [Lib.save_settings, he]

/-- C9, witness: a persist step that always fails with `disk full` leaves
the command reporting that error while the stored value is already the new
settings. -/
theorem c9_save_settings_memory_first_witness :
    (Lib.save_settings (fun _ => .error "Failed to write settings.json: disk full")
        ⟨none, some true, none, none⟩ ⟨Config.defaultSettings, false⟩).1.value =
      ⟨none, some true, none, none⟩ ∧
    (Lib.save_settings (fun _ => .error "Failed to write settings.json: disk full")
        ⟨none, some true, none, none⟩ ⟨Config.defaultSettings, false⟩).2 =
      some (.error "Failed to write settings.json: disk full") := by
  have h := c9_save_settings_memory_first
    (fun _ => .error "Failed to write settings.json: disk full")
    ⟨none, some true, none, none⟩ ⟨Config.defaultSettings, false⟩
  exact ⟨h.1, h.2 "Failed to write settings.json: disk full" rfl⟩

/-- C8: within one downloader call, the byte counts carried by the emitted
fine-grained progress events are monotonically non-decreasing, for the
flash-player downloader and for the game downloader alike. -/
theorem c8_bytes_monotone (item dest : String) (resp : HttpResponse) (fs : FS) :
    List.Chain' (· ≤ ·)
      ((Flash.download_file_with_progress item dest resp fs).events.map
        DownloadProgress.downloaded) ∧
    List.Chain' (· ≤ ·)
      ((Game.download_file_with_progress item dest resp fs).events.map
        DownloadProgress.downloaded) := by
  constructor
  · by_cases hs : statusIsSuccess resp.status
    · by_cases hcl : Flash.MAX_DOWNLOAD_SIZE < (resp.content_length).getD 0
      · simp [Flash.download_file_with_progress, hs, hcl]
      · have hev := flashLoop_events item dest (withExtension dest "part")
          ((resp.content_length).getD 0) resp.chunks 0
          (fsSet fs (withExtension dest "part") []) []
        have hmono := flashEventsFrom_mono item ((resp.content_length).getD 0) resp.chunks 0
        have := hmono.tail
        simp only [List.tail_cons] at this
        simp [Flash.download_file_with_progress, hs, hcl, hev, this]
    · simp [Flash.download_file_with_progress, hs]
  · by_cases hs : statusIsSuccess resp.status
    · have hev := gameLoop_events item dest ((resp.content_length).getD 0) resp.chunks 0
        (fsSet fs dest []) []
      have hmono := gameEventsFrom_mono item ((resp.content_length).getD 0) resp.chunks 0
      have := hmono.tail
      simp only [List.tail_cons] at this
      simp [Game.download_file_with_progress, hs, hev, this]
    · simp [Game.download_file_with_progress, hs]

/-- C7, counterexample: with 29 of 100 declared bytes downloaded, the code's
`((29 as f64 / 100 as f64) * 100.0) as u32` computation reports 28, while
`floor(29 / 100 * 100) = 29` — the emitted percent is not
`floor(downloaded / total * 100)`. -/
theorem c7_counterexample :
    (Flash.download_file_with_progress "flash_player" "F/x.exe"
        ⟨200, some 100, [.ok (List.replicate 29 0)]⟩ []).events =
      [⟨"flash_player", 28, 29, 100, "Downloading..."⟩] ∧
    29 * 100 / 100 = 29 ∧ ¬ (28 : Nat) = 29 := by
  refine ⟨by decide, by norm_num, by norm_num⟩

/-- C7, amended: every fine-grained progress event emitted after a chunk
carries `progress = progressValue downloaded total` — the exact IEEE-754
double computation `((downloaded as f64 / total as f64) * 100.0) as u32` of
the source, which truncates the correctly-rounded double and can fall one
below the exact `floor(downloaded / total * 100)` — with `total` the
declared content length (0 when absent); and when the total is unknown
(zero) the percent is 0, unknown-total not being an error. -/
theorem c7_amended_progress_percent :
    (∀ (item dest : String) (resp : HttpResponse) (fs : FS) (ev : DownloadProgress),
      ev ∈ (Flash.download_file_with_progress item dest resp fs).events →
        ev.progress = progressValue ev.downloaded ev.total ∧
          ev.total = (resp.content_length).getD 0) ∧
    (∀ (item dest : String) (resp : HttpResponse) (fs : FS) (ev : DownloadProgress),
      ev ∈ (Ruffle.download_file_with_progress item dest resp fs).events →
        ev.progress = progressValue ev.downloaded ev.total ∧
          ev.total = (resp.content_length).getD 0) ∧
    (∀ d, progressValue d 0 = 0) := by
  refine ⟨?_, ?_, fun d => by simp [progressValue]⟩
  · intro item dest resp fs ev hev
    by_cases hs : statusIsSuccess resp.status
    · by_cases hcl : Flash.MAX_DOWNLOAD_SIZE < (resp.content_length).getD 0
      · simp [Flash.download_file_with_progress, hs, hcl] at hev
      · have hevq : ev ∈ Flash.eventsFrom item ((resp.content_length).getD 0) resp.chunks 0 := by
          have heq := flashLoop_events item dest (withExtension dest "part")
            ((resp.content_length).getD 0) resp.chunks 0
            (fsSet fs (withExtension dest "part") []) []
          simpa [Flash.download_file_with_progress, hs, hcl, heq] using hev
        exact flashEventsFrom_progress item ((resp.content_length).getD 0) resp.chunks 0 ev hevq
    · simp [Flash.download_file_with_progress, hs] at hev
  · intro item dest resp fs ev hev
    by_cases hs : statusIsSuccess resp.status
    · have hevq : ev ∈ Ruffle.eventsFrom item ((resp.content_length).getD 0) resp.chunks 0 := by
        have heq := ruffleLoop_events item dest ((resp.content_length).getD 0) resp.chunks 0
          (fsSet fs dest []) []
        simpa [Ruffle.download_file_with_progress, hs, heq] using hev
      exact ruffleEventsFrom_progress item ((resp.content_length).getD 0) resp.chunks 0 ev hevq
    · simp [Ruffle.download_file_with_progress, hs] at hev

/-- C7, witness for the amended theorem: the single event of the concrete
29-of-100-bytes flash run satisfies the relation — its percent is
`progressValue 29 100`, which evaluates to 28. -/
theorem c7_amended_progress_percent_witness :
    (28 = progressValue 29 100 ∧ (100 : Nat) = (some 100 : Option Nat).getD 0) ∧
    progressValue 29 100 = 28 := by
  refine ⟨?_, by decide⟩
  have h := c7_amended_progress_percent.1 "flash_player" "F/x.exe"
    ⟨200, some 100, [.ok (List.replicate 29 0)]⟩ []
    ⟨"flash_player", 28, 29, 100, "Downloading..."⟩ (by decide)
  exact h

/-- C6: nightly discovery takes the first release in index order (no version
comparison — trailing releases are ignored), picks the first asset whose
name contains the OS pattern and not the browser-extension label, fails on
an empty index or when nothing matches; and when discovery fails the
coordinator downloads from the static configuration URL, records the
literal version token "fallback" on success, and the discovery error itself
never influences the command's result. -/
theorem c6_discovery_and_fallback :
    (∀ os, Ruffle.fetch_latest_nightly (.ok []) os = .error "No releases found") ∧
    (∀ e os, Ruffle.fetch_latest_nightly (.error e) os = .error e) ∧
    (∀ (os : OS) (r : Ruffle.RuffleRelease) (rs : List Ruffle.RuffleRelease),
      Ruffle.fetch_latest_nightly (.ok (r :: rs)) os = Ruffle.fetch_latest_nightly (.ok [r]) os) ∧
    (∀ (os : OS) (r : Ruffle.RuffleRelease) rs (a : Ruffle.RuffleAsset),
      r.assets.find? (Ruffle.assetMatches os) = some a →
      Ruffle.fetch_latest_nightly (.ok (r :: rs)) os =
        .ok (a.browser_download_url, (if os = OS.windows then "ruffle.exe" else "ruffle"),
          r.tag_name)) ∧
    (∀ (os : OS) (r : Ruffle.RuffleRelease) rs,
      r.assets.find? (Ruffle.assetMatches os) = none →
      Ruffle.fetch_latest_nightly (.ok (r :: rs)) os =
        .error ("No asset found for target: " ++ Ruffle.targetPattern os)) ∧
    (∀ (e e' : String) (net : String → HttpResponse)
      (ez et : FS → String → String → Except String FS) (cfg : Config.AppConfig) (os : OS)
      (dir : String) (v : Config.GameVersions) (fs : FS),
      (Ruffle.download_ruffle (.error e) net ez et cfg os dir v fs).requests =
        [(Config.ruffleOsCfg cfg os).url] ∧
      (Ruffle.download_ruffle (.error e) net ez et cfg os dir v fs).fs =
        (Ruffle.download_ruffle (.error e') net ez et cfg os dir v fs).fs ∧
      (Ruffle.download_ruffle (.error e) net ez et cfg os dir v fs).result =
        (Ruffle.download_ruffle (.error e') net ez et cfg os dir v fs).result ∧
      (Ruffle.download_ruffle (.error e) net ez et cfg os dir v fs).versions_saved =
        (Ruffle.download_ruffle (.error e') net ez et cfg os dir v fs).versions_saved) ∧
    (∀ (e : String) (net : String → HttpResponse)
      (ez et : FS → String → String → Except String FS) (cfg : Config.AppConfig) (os : OS)
      (dir : String) (v : Config.GameVersions) (fs : FS),
      ((Ruffle.download_ruffle (.error e) net ez et cfg os dir v fs).result).isOk = true →
      (Ruffle.download_ruffle (.error e) net ez et cfg os dir v fs).versions_saved =
        some { v with ruffle := "fallback" }) := by
  refine ⟨fun os => rfl, fun e os => rfl, fun os r rs => rfl, ?_, ?_, ?_, ?_⟩
  · intro os r rs a hfind
    simp [Ruffle.fetch_latest_nightly, hfind]
  · intro os r rs hfind
    simp [Ruffle.fetch_latest_nightly, hfind]
  · intro e e' net ez et cfg os dir v fs
    simp only [Ruffle.download_ruffle, Ruffle.fetch_latest_nightly]
    rcases hdl : (Ruffle.download_file_with_progress "ruffle"
        (dir ++ "/" ++ lastSegment (Config.ruffleOsCfg cfg os).url)
        (net (Config.ruffleOsCfg cfg os).url) fs).result with e2 | u
    · simp [hdl]
    · rcases hex : (if strEndsWith (lastSegment (Config.ruffleOsCfg cfg os).url) ".zip" = true then
          ez (Ruffle.download_file_with_progress "ruffle"
            (dir ++ "/" ++ lastSegment (Config.ruffleOsCfg cfg os).url)
            (net (Config.ruffleOsCfg cfg os).url) fs).fs
            (dir ++ "/" ++ lastSegment (Config.ruffleOsCfg cfg os).url) dir
        else if strEndsWith (lastSegment (Config.ruffleOsCfg cfg os).url) ".tar.gz" = true then
          et (Ruffle.download_file_with_progress "ruffle"
            (dir ++ "/" ++ lastSegment (Config.ruffleOsCfg cfg os).url)
            (net (Config.ruffleOsCfg cfg os).url) fs).fs
            (dir ++ "/" ++ lastSegment (Config.ruffleOsCfg cfg os).url) dir
        else .error ("Unsupported archive format: " ++
          lastSegment (Config.ruffleOsCfg cfg os).url)) with e3 | fs2
      · simp [hdl, hex]
      · simp [hdl, hex]
  · intro e net ez et cfg os dir v fs hok
    simp only [Ruffle.download_ruffle, Ruffle.fetch_latest_nightly] at hok ⊢
    rcases hdl : (Ruffle.download_file_with_progress "ruffle"
        (dir ++ "/" ++ lastSegment (Config.ruffleOsCfg cfg os).url)
        (net (Config.ruffleOsCfg cfg os).url) fs).result with e2 | u
    · rw [hdl] at hok
      simp [Except.isOk, Except.toBool] at hok
    · rcases hex : (if strEndsWith (lastSegment (Config.ruffleOsCfg cfg os).url) ".zip" = true then
          ez (Ruffle.download_file_with_progress "ruffle"
            (dir ++ "/" ++ lastSegment (Config.ruffleOsCfg cfg os).url)
            (net (Config.ruffleOsCfg cfg os).url) fs).fs
            (dir ++ "/" ++ lastSegment (Config.ruffleOsCfg cfg os).url) dir
        else if strEndsWith (lastSegment (Config.ruffleOsCfg cfg os).url) ".tar.gz" = true then
          et (Ruffle.download_file_with_progress "ruffle"
            (dir ++ "/" ++ lastSegment (Config.ruffleOsCfg cfg os).url)
            (net (Config.ruffleOsCfg cfg os).url) fs).fs
            (dir ++ "/" ++ lastSegment (Config.ruffleOsCfg cfg os).url) dir
        else .error ("Unsupported archive format: " ++
          lastSegment (Config.ruffleOsCfg cfg os).url)) with e3 | fs2
      · rw [hdl] at hok
        simp only [hex] at hok ⊢
        simp [Except.isOk, Except.toBool] at hok
      · simp [hdl, hex]

/-- C6, witness: a concrete index whose first release carries a matching
Linux asset is resolved to that asset; and with a failed discovery, the
static default configuration is used and the version ledger records the
literal token "fallback". -/
theorem c6_discovery_and_fallback_witness :
    Ruffle.fetch_latest_nightly (.ok [⟨"nightly-2026-03-01",
        [⟨"ruffle-nightly-2026_03_01-linux-x86_64.tar.gz",
          "https://example.com/dl/ruffle-linux.tar.gz"⟩]⟩]) .linux =
      .ok ("https://example.com/dl/ruffle-linux.tar.gz",
        (if OS.linux = OS.windows then "ruffle.exe" else "ruffle"), "nightly-2026-03-01") ∧
    (Ruffle.download_ruffle (.error "boom") (fun _ => ⟨200, some 1, [.ok [9]]⟩)
        (fun fs _ _ => .ok fs) (fun fs _ _ => .ok fs) Config.defaultAppConfig .linux "R"
        Config.defaultGameVersions []).versions_saved =
      some { Config.defaultGameVersions with ruffle := "fallback" } := by
  constructor
  · exact c6_discovery_and_fallback.2.2.2.1 .linux ⟨"nightly-2026-03-01",
      [⟨"ruffle-nightly-2026_03_01-linux-x86_64.tar.gz",
        "https://example.com/dl/ruffle-linux.tar.gz"⟩]⟩ []
      ⟨"ruffle-nightly-2026_03_01-linux-x86_64.tar.gz",
        "https://example.com/dl/ruffle-linux.tar.gz"⟩ (by decide)
  · exact c6_discovery_and_fallback.2.2.2.2.2.2 "boom" (fun _ => ⟨200, some 1, [.ok [9]]⟩)
      (fun fs _ _ => .ok fs) (fun fs _ _ => .ok fs) Config.defaultAppConfig .linux "R"
      Config.defaultGameVersions [] (by decide)

/-- C10, counterexample: a versioned game file whose modification time
equals the Unix epoch is never selected (the scan keeps only entries with
mtime **strictly** greater than its `UNIX_EPOCH` seed), so with the
standard file absent and `g-v1.swf` present at the epoch, lookup returns
`Ok(None)` even though a matching versioned file exists — contradicting
"returning none only when neither form exists". -/
theorem c10_counterexample :
    Game.find_game_path (fun _ => false) (.ok "G")
        (some [some ⟨some "g-v1.swf", some 0⟩]) "g" = .ok none ∧
    strStartsWith "g-v1.swf" ("g" ++ "-v") = true ∧
    strEndsWith "g-v1.swf" ".swf" = true := by
  refine ⟨by decide, by decide, by decide⟩

/-- C10, amended: lookup probes the filesystem passed to it on every call;
it returns `games_dir/{game_id}.swf` whenever that file exists; otherwise,
among readable directory entries whose names start with `"{game_id}-v"` and
end with `".swf"` and whose modification time is **strictly after** the
Unix epoch, it returns the one carrying the maximal modification time (the
first such, on ties); it returns none exactly when the standard file is
absent and every matching entry's modification time is at or before the
epoch (entries with unreadable names or metadata being skipped). -/
theorem c10_amended_game_lookup (ex : String → Bool) (dir : String)
    (es : List (Option Game.DirEntry)) (gid : String) :
    (ex (dir ++ "/" ++ gid ++ ".swf") = true →
      Game.find_game_path ex (.ok dir) (some es) gid =
        .ok (some (dir ++ "/" ++ gid ++ ".swf"))) ∧
    (ex (dir ++ "/" ++ gid ++ ".swf") = false →
      ∀ p, Game.find_game_path ex (.ok dir) (some es) gid = .ok (some p) →
        ∃ e ∈ es, ∃ n t, Game.entryMatch (gid ++ "-v") e = some (n, t) ∧
          p = dir ++ "/" ++ n ∧ 0 < t ∧
          ∀ e' ∈ es, ∀ n' t', Game.entryMatch (gid ++ "-v") e' = some (n', t') → t' ≤ t) ∧
    (ex (dir ++ "/" ++ gid ++ ".swf") = false →
      (Game.find_game_path ex (.ok dir) (some es) gid = .ok none ↔
        ∀ e ∈ es, ∀ n t, Game.entryMatch (gid ++ "-v") e = some (n, t) → t ≤ 0)) := by
  refine ⟨?_, ?_, ?_⟩
  · intro hex
    simp [Game.find_game_path, hex]
  · intro hex p hp
    rcases hscan : (es.foldl (Game.scanStep dir (gid ++ "-v")) (none, 0)).1 with _ | p0
    · simp [Game.find_game_path, hex, hscan] at hp
    · have hp0 : p0 = p := by
        simpa [Game.find_game_path, hex, hscan] using hp
      subst hp0
      rcases scanFold_some dir (gid ++ "-v") es (none, 0) with hkeep | ⟨e0, he0, n, t, hm, hr, hlt⟩
      · rw [hkeep] at hscan
        cases hscan
      · refine ⟨e0, he0, n, t, hm, ?_, hlt, ?_⟩
        · rw [hr] at hscan
          exact (Option.some_inj.mp hscan).symm
        · intro e' he' n' t' hm'
          have := scanFold_max dir (gid ++ "-v") es (none, 0) e' he' n' t' hm'
          rw [hr] at this
          exact this
  · intro hex
    constructor
    · intro hnone
      rcases hscan : (es.foldl (Game.scanStep dir (gid ++ "-v")) (none, 0)).1 with _ | p0
      · have := scanFold_none dir (gid ++ "-v") es (none, 0) hscan
        exact this.2
      · simp [Game.find_game_path, hex, hscan] at hnone
    · intro hall
      have hkeep := scanFold_keep dir (gid ++ "-v") es (none, 0) hall
      simp [Game.find_game_path, hex, hkeep]

/-- C10, witness for the amended theorem: with the standard file absent and
two versioned files (mtimes 5 and 3), lookup returns the mtime-5 file, and
that result indeed points at a matching entry of maximal positive mtime. -/
theorem c10_amended_game_lookup_witness :
    Game.find_game_path (fun _ => false) (.ok "G")
        (some [some ⟨some "g-v2.swf", some 5⟩, some ⟨some "g-v1.swf", some 3⟩]) "g" =
      .ok (some "G/g-v2.swf") ∧
    ∃ e ∈ [some (⟨some "g-v2.swf", some 5⟩ : Game.DirEntry),
        some ⟨some "g-v1.swf", some 3⟩], ∃ n t,
      Game.entryMatch ("g" ++ "-v") e = some (n, t) ∧
        "G/g-v2.swf" = "G" ++ "/" ++ n ∧ 0 < t ∧
        ∀ e' ∈ [some (⟨some "g-v2.swf", some 5⟩ : Game.DirEntry),
            some ⟨some "g-v1.swf", some 3⟩], ∀ n' t',
          Game.entryMatch ("g" ++ "-v") e' = some (n', t') → t' ≤ t := by
  refine ⟨by decide, ?_⟩
  exact (c10_amended_game_lookup (fun _ => false) "G"
    [some ⟨some "g-v2.swf", some 5⟩, some ⟨some "g-v1.swf", some 3⟩] "g").2.1
    (by decide) "G/g-v2.swf" (by decide)
